import Mathlib

/-!
Shallow embedding of the ledger-and-budget reconciliation engine of the
Budget-Planner repository (the `FinanceProvider` state and mutators in
`src/context/FinanceContext.tsx`), together with theorems settling the
spec's claims about it.

Modelling conventions:
* JavaScript numbers are modelled as exact rationals (`ℚ`).
* The component state (`transactions`, `savings`, `budgets`,
  `roundUpSavings`) is gathered in a `FinanceState` record; each mutator
  becomes a pure function `FinanceState → ... → FinanceState`.
* `Date.now()` is modelled by an explicit `now : Nat` argument to
  `addTransaction` / `addSavingsGoal`; the assigned id is `Nat.repr now`,
  mirroring `Date.now().toString()`.
* `Math.random()`-based message selection is modelled by an explicit
  index argument `r : Nat` (`Math.floor(Math.random() * n)` always lands
  in `{0, ..., n-1}`; `checkRegretRisk` uses `r % 4` since the source
  draws from `Math.random() * 4`).
* `Math.ceil` is `Int.ceil` on `ℚ`; `Math.min`/`Math.max` are `min`/`max`.
-/

namespace BudgetPlanner

inductive TxType where
  | income
  | expense
deriving DecidableEq, Repr

/-- `new Date(year, month, day)` reduced to its constructor arguments. -/
structure DateVal where
  year : Nat
  month : Nat
  day : Nat
deriving DecidableEq, Repr

/-- The `Transaction` interface. -/
structure Transaction where
  id : String
  amount : ℚ
  category : String
  description : String
  date : DateVal
  type : TxType
deriving DecidableEq, Repr

/-- `Omit<Transaction, 'id'>`: the caller-supplied part of a transaction. -/
structure TransactionInput where
  amount : ℚ
  category : String
  description : String
  date : DateVal
  type : TxType
deriving DecidableEq, Repr

def TransactionInput.toTransaction (t : TransactionInput) (id : String) : Transaction :=
  { id := id, amount := t.amount, category := t.category,
    description := t.description, date := t.date, type := t.type }

/-- The `SavingsGoal` interface. -/
structure SavingsGoal where
  id : String
  name : String
  target : ℚ
  current : ℚ
  deadline : DateVal
deriving DecidableEq, Repr

/-- `Omit<SavingsGoal, 'id'>`. -/
structure SavingsGoalInput where
  name : String
  target : ℚ
  current : ℚ
  deadline : DateVal
deriving DecidableEq, Repr

def SavingsGoalInput.toGoal (g : SavingsGoalInput) (id : String) : SavingsGoal :=
  { id := id, name := g.name, target := g.target,
    current := g.current, deadline := g.deadline }

/-- The `Budget` interface. -/
structure Budget where
  category : String
  limit : ℚ
  spent : ℚ
deriving DecidableEq, Repr

/-- The full `FinanceProvider` component state. -/
structure FinanceState where
  transactions : List Transaction
  savings : List SavingsGoal
  budgets : List Budget
  roundUpSavings : ℚ
deriving DecidableEq, Repr

/-- The hard-coded seed data of `useState` in `FinanceProvider`. -/
def initialState : FinanceState :=
  { transactions :=
      [ { id := "1", amount := 2500, category := "Food",
          description := "Grocery shopping", date := ⟨2024, 0, 15⟩,
          type := TxType.expense },
        { id := "2", amount := 5000, category := "Salary",
          description := "Monthly salary", date := ⟨2024, 0, 1⟩,
          type := TxType.income },
        { id := "3", amount := 800, category := "Transportation",
          description := "Uber rides", date := ⟨2024, 0, 10⟩,
          type := TxType.expense } ],
    savings :=
      [ { id := "1", name := "Emergency Fund", target := 50000,
          current := 15000, deadline := ⟨2024, 11, 31⟩ },
        { id := "2", name := "Vacation", target := 25000,
          current := 8500, deadline := ⟨2024, 5, 30⟩ } ],
    budgets :=
      [ { category := "Food", limit := 5000, spent := 2500 },
        { category := "Transportation", limit := 2000, spent := 800 },
        { category := "Entertainment", limit := 3000, spent := 1200 },
        { category := "Shopping", limit := 4000, spent := 3500 } ],
    roundUpSavings := 450 }

/-- `addTransaction`: prepend the new record (id from `Date.now()`),
bump the round-up accumulator for expenses, and bump `spent` of every
budget whose category matches an expense. -/
def addTransaction (s : FinanceState) (now : Nat) (t : TransactionInput) :
    FinanceState :=
  let newTransaction := t.toTransaction (Nat.repr now)
  let roundUp : ℚ := (⌈t.amount⌉ : ℚ) - t.amount
  { s with
    transactions := newTransaction :: s.transactions,
    roundUpSavings :=
      if t.type = TxType.expense then
        (if roundUp > 0 then s.roundUpSavings + roundUp
         else s.roundUpSavings)
      else s.roundUpSavings,
    budgets :=
      if t.type = TxType.expense then
        s.budgets.map (fun budget =>
          if budget.category = t.category then
            { budget with spent := budget.spent + t.amount }
          else budget)
      else s.budgets }

/-- `addSavingsGoal`: append the new goal with an id from `Date.now()`. -/
def addSavingsGoal (s : FinanceState) (now : Nat) (g : SavingsGoalInput) :
    FinanceState :=
  { s with savings := s.savings ++ [g.toGoal (Nat.repr now)] }

/-- `updateBudget`: replace `limit` on every budget whose category
matches; nothing else changes. -/
def updateBudget (s : FinanceState) (category : String) (limit : ℚ) :
    FinanceState :=
  { s with
    budgets := s.budgets.map (fun budget =>
      if budget.category = category then { budget with limit := limit }
      else budget) }

/-- `editTransaction`: silently no-op when the id is absent; otherwise
replace the record (keeping the id), reverse the old record's budget
contribution when it was an expense (clamped at 0), then apply the new
record's contribution when it is an expense. -/
def editTransaction (s : FinanceState) (id : String) (t : TransactionInput) :
    FinanceState :=
  match s.transactions.find? (fun x => x.id = id) with
  | none => s
  | some oldTransaction =>
    let afterReverse :=
      if oldTransaction.type = TxType.expense then
        s.budgets.map (fun budget =>
          if budget.category = oldTransaction.category then
            { budget with spent := max 0 (budget.spent - oldTransaction.amount) }
          else budget)
      else s.budgets
    let afterApply :=
      if t.type = TxType.expense then
        afterReverse.map (fun budget =>
          if budget.category = t.category then
            { budget with spent := budget.spent + t.amount }
          else budget)
      else afterReverse
    { s with
      transactions := s.transactions.map (fun x =>
        if x.id = id then t.toTransaction id else x),
      budgets := afterApply }

/-- `deleteTransaction`: silently no-op when the id is absent; otherwise
remove every record with that id and reverse the found record's budget
contribution when it was an expense (clamped at 0). -/
def deleteTransaction (s : FinanceState) (id : String) : FinanceState :=
  match s.transactions.find? (fun x => x.id = id) with
  | none => s
  | some transaction =>
    { s with
      transactions := s.transactions.filter (fun x => x.id ≠ id),
      budgets :=
        if transaction.type = TxType.expense then
          s.budgets.map (fun budget =>
            if budget.category = transaction.category then
              { budget with spent := max 0 (budget.spent - transaction.amount) }
            else budget)
        else s.budgets }

/-- The `reduce((sum, t) => sum + t.amount, 0)` pattern. -/
def sumAmounts (ts : List Transaction) : ℚ :=
  ts.foldl (fun sum t => sum + t.amount) 0

def totalIncome (s : FinanceState) : ℚ :=
  sumAmounts (s.transactions.filter (fun t => t.type = TxType.income))

def totalExpenses (s : FinanceState) : ℚ :=
  sumAmounts (s.transactions.filter (fun t => t.type = TxType.expense))

/-- Per-category expense sum, as in `checkRegretRisk` and
`getExpensesByCategory`. -/
def categoryExpenses (s : FinanceState) (category : String) : ℚ :=
  sumAmounts (s.transactions.filter (fun t =>
    t.type = TxType.expense ∧ t.category = category))

/-- Look up the budget entry for a category (`budgets.find(...)`). -/
def findBudget (s : FinanceState) (category : String) : Option Budget :=
  s.budgets.find? (fun b => b.category = category)

structure CanAffordResult where
  canAfford : Bool
  suggestion : String
deriving DecidableEq, Repr

/-- The five-element `suggestions` array in `canAfford`. -/
def suggestions : List String :=
  [ "Consider saving for a few more days before this purchase",
    "Try the 24-hour rule before buying non-essentials",
    "Look for alternatives or wait for a sale",
    "Focus on your savings goals first",
    "Skip one dining out to make room for this purchase" ]

/-- `canAfford`; `r` models `Math.floor(Math.random() * suggestions.length)`
(always in `{0, ..., 4}`). -/
def canAfford (s : FinanceState) (amount : ℚ) (r : Nat) : CanAffordResult :=
  let availableBalance := totalIncome s - totalExpenses s
  let ca : Bool := decide (availableBalance ≥ amount)
  { canAfford := ca,
    suggestion :=
      if ca then "You can afford this! Consider your other goals too."
      else suggestions.getD r "" }

structure RegretRiskResult where
  risk : ℚ
  message : String
deriving DecidableEq, Repr

/-- The five-element `messages` array in `checkRegretRisk`; indices 0-3 are
the caution messages, index 4 the fixed positive one. -/
def messages : List String :=
  [ "You\x27ve been spending a lot in this category lately. Sure about this?",
    "Remember your savings goals. Is this purchase aligned?",
    "You bought something similar recently. Still need it?",
    "This might push you over budget. Consider waiting?",
    "Great choice! This fits well within your budget." ]

/-- `checkRegretRisk`; `r` models the random draw (the source uses
`Math.floor(Math.random() * 4)`, hence `r % 4`). -/
def checkRegretRisk (s : FinanceState) (amount : ℚ) (category : String)
    (r : Nat) : RegretRiskResult :=
  let risk : ℚ :=
    match findBudget s category with
    | some budget => (categoryExpenses s category + amount) / budget.limit
    | none => 1/2
  { risk := min risk 1,
    message :=
      if risk > 4/5 then messages.getD (r % 4) ""
      else messages.getD 4 "" }

/-- One engine operation, for claims quantifying over operation
sequences. -/
inductive Op where
  | addTx (now : Nat) (t : TransactionInput)
  | editTx (id : String) (t : TransactionInput)
  | deleteTx (id : String)
  | addGoal (now : Nat) (g : SavingsGoalInput)
  | updateB (category : String) (limit : ℚ)
deriving DecidableEq, Repr

def applyOp (s : FinanceState) : Op → FinanceState
  | Op.addTx now t => addTransaction s now t
  | Op.editTx id t => editTransaction s id t
  | Op.deleteTx id => deleteTransaction s id
  | Op.addGoal now g => addSavingsGoal s now g
  | Op.updateB c l => updateBudget s c l

def applyOps (ops : List Op) (s : FinanceState) : FinanceState :=
  ops.foldl applyOp s

/-! ### Helper lemmas -/

lemma map_eq_self {α : Type} {l : List α} {f : α → α}
    (h : ∀ a ∈ l, f a = a) : l.map f = l := by
  rw [List.map_congr_left h, List.map_id']

lemma foldl_add_eq (ts : List Transaction) (a : ℚ) :
    ts.foldl (fun sum t => sum + t.amount) a =
      a + ts.foldl (fun sum t => sum + t.amount) 0 := by
  induction ts generalizing a with
  | nil => simp
  | cons t ts ih =>
    rw [List.foldl_cons, List.foldl_cons, ih (a + t.amount), ih (0 + t.amount)]
    ring

lemma sumAmounts_cons (t : Transaction) (ts : List Transaction) :
    sumAmounts (t :: ts) = t.amount + sumAmounts ts := by
  unfold sumAmounts
  rw [List.foldl_cons, foldl_add_eq]
  ring

/-- Mapping a category-preserving rewrite over the budgets commutes with
looking a category up. -/
lemma find?_map_preserve (l : List Budget) (f : Budget → Budget) (c : String)
    (hf : ∀ b, (f b).category = b.category) :
    (l.map f).find? (fun b => b.category = c) =
      (l.find? (fun b => b.category = c)).map f := by
  have hfun : ((fun b => decide (b.category = c)) ∘ f) =
      (fun b : Budget => decide (b.category = c)) := by
    funext b
    simp [Function.comp, hf]
  rw [List.find?_map, hfun]

lemma findBudget_category {s : FinanceState} {c : String} {b : Budget}
    (hb : findBudget s c = some b) : b.category = c := by
  have h := List.find?_some hb
  simpa using h

/-! ### Claim C5: round-up monotonicity -/

lemma roundUp_le_applyOp (s : FinanceState) (op : Op) :
    s.roundUpSavings ≤ (applyOp s op).roundUpSavings := by
  cases op with
  | addTx now t =>
    simp only [applyOp, addTransaction]
    split
    case isTrue h =>
      split
      case isTrue h2 => linarith
      case isFalse h2 => exact le_refl _
    case isFalse h => exact le_refl _
  | editTx id t =>
    simp only [applyOp, editTransaction]
    cases s.transactions.find? (fun x => x.id = id) <;> simp
  | deleteTx id =>
    simp only [applyOp, deleteTransaction]
    cases s.transactions.find? (fun x => x.id = id) <;> simp
  | addGoal now g => simp [applyOp, addSavingsGoal]
  | updateB c l => simp [applyOp, updateBudget]

/-- C5. The round-up accumulator is non-decreasing across any sequence of
engine operations; `editTransaction` and `deleteTransaction` leave it
unchanged, and `addTransaction` changes it exactly by
`ceil(amount) - amount` when the transaction is an expense with a strictly
positive round-up, and by nothing otherwise. -/
theorem roundUp_monotone (ops : List Op) (s : FinanceState) :
    s.roundUpSavings ≤ (applyOps ops s).roundUpSavings ∧
    (∀ id t, (editTransaction s id t).roundUpSavings = s.roundUpSavings) ∧
    (∀ id, (deleteTransaction s id).roundUpSavings = s.roundUpSavings) ∧
    (∀ now t, (addTransaction s now t).roundUpSavings =
      s.roundUpSavings +
        (if t.type = TxType.expense ∧ (⌈t.amount⌉ : ℚ) - t.amount > 0
         then (⌈t.amount⌉ : ℚ) - t.amount else 0)) := by
  refine ⟨?_, ?_, ?_, ?_⟩
  · induction ops generalizing s with
    | nil => exact le_refl _
    | cons op ops ih =>
      calc s.roundUpSavings ≤ (applyOp s op).roundUpSavings :=
            roundUp_le_applyOp s op
        _ ≤ (applyOps ops (applyOp s op)).roundUpSavings := ih (applyOp s op)
  · intro id t
    simp only [editTransaction]
    cases s.transactions.find? (fun x => x.id = id) <;> simp
  · intro id
    simp only [deleteTransaction]
    cases s.transactions.find? (fun x => x.id = id) <;> simp
  · intro now t
    simp only [addTransaction]
    by_cases ht : t.type = TxType.expense
    · rw [if_pos ht]
      by_cases hr0 : (⌈t.amount⌉ : ℚ) - t.amount > 0
      · rw [if_pos hr0, if_pos ⟨ht, hr0⟩]
      · rw [if_neg hr0, if_neg (fun hand => hr0 hand.2)]
        ring
    · rw [if_neg ht, if_neg (fun hand => ht hand.1)]
      ring

/-! ### Claim C8: not-found is a silent no-op -/

/-- C8. `deleteTransaction` and `editTransaction` on an identifier absent
from the store leave the whole engine state unchanged. -/
theorem notFound_noop (s : FinanceState) (id : String)
    (h : ∀ tx ∈ s.transactions, tx.id ≠ id) :
    deleteTransaction s id = s ∧ ∀ t, editTransaction s id t = s := by
  have hnone : s.transactions.find? (fun x => x.id = id) = none := by
    rw [List.find?_eq_none]
    intro x hx
    simpa using h x hx
  constructor
  · unfold deleteTransaction
    rw [hnone]
  · intro t
    unfold editTransaction
    rw [hnone]

def sampleExpense : TransactionInput :=
  { amount := 100, category := "Food", description := "coffee",
    date := ⟨2024, 1, 1⟩, type := TxType.expense }

/-- Witness for C8 at a concrete state and identifier. -/
theorem notFound_noop_witness :
    deleteTransaction initialState "999" = initialState ∧
    editTransaction initialState "999" sampleExpense = initialState := by
  have h := notFound_noop initialState "999" (by decide)
  exact ⟨h.1, h.2 sampleExpense⟩

/-! ### Claim C2: reversibility of add-then-delete -/

lemma addTransaction_budgets (s : FinanceState) (now : Nat)
    (t : TransactionInput) :
    (addTransaction s now t).budgets =
      if t.type = TxType.expense then
        s.budgets.map (fun budget =>
          if budget.category = t.category then
            { budget with spent := budget.spent + t.amount }
          else budget)
      else s.budgets := rfl

lemma addTransaction_transactions (s : FinanceState) (now : Nat)
    (t : TransactionInput) :
    (addTransaction s now t).transactions =
      t.toTransaction (Nat.repr now) :: s.transactions := rfl

lemma deleteTransaction_budgets_of_found (s : FinanceState) (id : String)
    (tx : Transaction)
    (hfind : s.transactions.find? (fun x => x.id = id) = some tx) :
    (deleteTransaction s id).budgets =
      if tx.type = TxType.expense then
        s.budgets.map (fun budget =>
          if budget.category = tx.category then
            { budget with spent := max 0 (budget.spent - tx.amount) }
          else budget)
      else s.budgets := by
  unfold deleteTransaction
  rw [hfind]

/-- C2. Adding a transaction and then deleting it via the identifier
assigned to it restores every budget entry — in particular
`Budget(t.category).spent` — for any prior state whose budgets satisfy the
data model's non-negativity of `spent`. -/
theorem add_then_delete_budgets (s : FinanceState) (now : Nat)
    (t : TransactionInput) (h : ∀ b ∈ s.budgets, 0 ≤ b.spent) :
    (deleteTransaction (addTransaction s now t) (Nat.repr now)).budgets =
      s.budgets := by
  have hfind : (addTransaction s now t).transactions.find?
      (fun x => x.id = Nat.repr now) = some (t.toTransaction (Nat.repr now)) := by
    rw [addTransaction_transactions]
    apply List.find?_cons_of_pos
    simp [TransactionInput.toTransaction]
  rw [deleteTransaction_budgets_of_found _ _ _ hfind]
  by_cases ht : t.type = TxType.expense
  · rw [if_pos (by simpa [TransactionInput.toTransaction] using ht),
      addTransaction_budgets, if_pos ht, List.map_map]
    apply map_eq_self
    intro b hb
    have hbs : (0:ℚ) ≤ b.spent := h b hb
    obtain ⟨bc, bl, bs⟩ := b
    by_cases hc : bc = t.category
    · simp [Function.comp, TransactionInput.toTransaction, hc,
        add_sub_cancel_right, max_eq_right hbs]
    · simp [Function.comp, TransactionInput.toTransaction, hc]
  · rw [if_neg (by simpa [TransactionInput.toTransaction] using ht),
      addTransaction_budgets, if_neg ht]

/-- Witness for C2 at a concrete state and transaction input. -/
theorem add_then_delete_budgets_witness :
    (deleteTransaction (addTransaction initialState 99 sampleExpense)
      (Nat.repr 99)).budgets = initialState.budgets :=
  add_then_delete_budgets initialState 99 sampleExpense (by decide)

/-! ### Claim C9: identifier assignment and prepending -/

/-- Counterexample to C9 as stated: two `addTransaction` calls in the same
millisecond (`Date.now()` returning `5` twice) assign the same
identifier, so the freshly assigned id collides with an id already in the
store. -/
theorem add_fresh_id_cex :
    ((addTransaction (addTransaction initialState 5 sampleExpense) 5
        sampleExpense).transactions.map (fun tx => tx.id)) =
      ["5", "5", "1", "2", "3"] ∧
    ¬ (["5", "5", "1", "2", "3"] : List String).Nodup := by
  constructor
  · rfl
  · decide

/-- C9 amended. `addTransaction` prepends the new record (most-recent-first
ordering), and the assigned identifier — the decimal string of the current
time in milliseconds — is distinct from every identifier already in the
store provided that string is not already present (e.g. when all calls
happen at pairwise distinct milliseconds); it is not unconditionally
fresh. -/
theorem add_fresh_id (s : FinanceState) (now : Nat) (t : TransactionInput) :
    (addTransaction s now t).transactions =
      t.toTransaction (Nat.repr now) :: s.transactions ∧
    (Nat.repr now ∉ s.transactions.map (fun tx => tx.id) →
      ∀ tx ∈ s.transactions, (t.toTransaction (Nat.repr now)).id ≠ tx.id) := by
  refine ⟨addTransaction_transactions s now t, ?_⟩
  intro hnotmem tx htx heq
  apply hnotmem
  have hmem : tx.id ∈ s.transactions.map (fun x => x.id) :=
    List.mem_map_of_mem (fun x => x.id) htx
  have heq' : Nat.repr now = tx.id := heq
  rw [heq']
  exact hmem

/-- Witness for C9 (amended) at a concrete state and timestamp. -/
theorem add_fresh_id_witness :
    (addTransaction initialState 99 sampleExpense).transactions =
      sampleExpense.toTransaction (Nat.repr 99) :: initialState.transactions ∧
    ∀ tx ∈ initialState.transactions,
      (sampleExpense.toTransaction (Nat.repr 99)).id ≠ tx.id := by
  have h := add_fresh_id initialState 99 sampleExpense
  exact ⟨h.1, h.2 (by decide)⟩

/-! ### Claim C10: updateBudget frame conditions -/

/-- C10. `updateBudget category limit` changes only the `limit` field of
budget entries whose category matches — `spent`, `category`, all other
budget entries, the transactions, the savings goals and the round-up
accumulator are untouched — and when no entry matches, the whole state is
unchanged (no entry is created). -/
theorem updateBudget_frame (s : FinanceState) (c : String) (l : ℚ) :
    (updateBudget s c l).transactions = s.transactions ∧
    (updateBudget s c l).savings = s.savings ∧
    (updateBudget s c l).roundUpSavings = s.roundUpSavings ∧
    (updateBudget s c l).budgets.length = s.budgets.length ∧
    (∀ i (h : i < s.budgets.length),
      ((s.budgets.get ⟨i, h⟩).category = c →
        (updateBudget s c l).budgets[i]? =
          some { s.budgets.get ⟨i, h⟩ with limit := l }) ∧
      ((s.budgets.get ⟨i, h⟩).category ≠ c →
        (updateBudget s c l).budgets[i]? = some (s.budgets.get ⟨i, h⟩))) ∧
    ((∀ b ∈ s.budgets, b.category ≠ c) → updateBudget s c l = s) := by
  refine ⟨rfl, rfl, rfl, List.length_map _ _, ?_, ?_⟩
  · intro i h
    have hget : (updateBudget s c l).budgets[i]? =
        Option.map (fun budget =>
          if budget.category = c then { budget with limit := l } else budget)
          s.budgets[i]? := by
      unfold updateBudget
      exact List.getElem?_map _ _ _
    rw [List.getElem?_eq_getElem h] at hget
    simp only [List.get_eq_getElem]
    constructor
    · intro hc
      rw [hget]
      simp only [Option.map_some']
      rw [if_pos hc]
    · intro hc
      rw [hget]
      simp only [Option.map_some']
      rw [if_neg hc]
  · intro hnone
    unfold updateBudget
    rw [map_eq_self]
    intro b hb
    rw [if_neg (hnone b hb)]

/-- Witness for C10 at concrete states, categories and limits. -/
theorem updateBudget_frame_witness :
    (updateBudget initialState "Food" 9000).transactions =
      initialState.transactions ∧
    (updateBudget initialState "Food" 9000).budgets[0]? =
      some { category := "Food", limit := 9000, spent := 2500 } ∧
    (updateBudget initialState "Food" 9000).budgets[1]? =
      some { category := "Transportation", limit := 2000, spent := 800 } ∧
    updateBudget initialState "Gym" 10 = initialState := by
  have h := updateBudget_frame initialState "Food" 9000
  have h0 := (h.2.2.2.2.1 0 (by decide)).1 (by decide)
  have h1 := (h.2.2.2.2.1 1 (by decide)).2 (by decide)
  have hg := (updateBudget_frame initialState "Gym" 10).2.2.2.2.2 (by decide)
  exact ⟨h.1, h0, h1, hg⟩

/-! ### Claim C1: additivity of budget spend -/

/-- A sequence of `addTransaction` calls, each with its `Date.now()`
value. -/
def applyAdds (adds : List (Nat × TransactionInput)) (s : FinanceState) :
    FinanceState :=
  adds.foldl (fun st p => addTransaction st p.1 p.2) s

/-- Sum of the expense amounts in category `c` among a sequence of added
transactions. -/
def addedExpenseSum (adds : List (Nat × TransactionInput)) (c : String) : ℚ :=
  (adds.map (fun p =>
    if p.2.type = TxType.expense ∧ p.2.category = c then p.2.amount else 0)).sum

lemma applyAdds_cons (now : Nat) (t : TransactionInput)
    (adds : List (Nat × TransactionInput)) (s : FinanceState) :
    applyAdds ((now, t) :: adds) s = applyAdds adds (addTransaction s now t) :=
  rfl

lemma addedExpenseSum_cons (now : Nat) (t : TransactionInput)
    (adds : List (Nat × TransactionInput)) (c : String) :
    addedExpenseSum ((now, t) :: adds) c =
      (if t.type = TxType.expense ∧ t.category = c then t.amount else 0) +
        addedExpenseSum adds c := by
  simp [addedExpenseSum]

lemma findBudget_addTransaction (s : FinanceState) (now : Nat)
    (t : TransactionInput) (c : String) (b : Budget)
    (hb : findBudget s c = some b) :
    findBudget (addTransaction s now t) c =
      some (if t.type = TxType.expense ∧ t.category = c
            then { b with spent := b.spent + t.amount } else b) := by
  have hbc : b.category = c := findBudget_category hb
  have hb' : s.budgets.find? (fun x => x.category = c) = some b := hb
  unfold findBudget
  rw [addTransaction_budgets]
  by_cases ht : t.type = TxType.expense
  · rw [if_pos ht, find?_map_preserve _ _ c ?hcatkeep, hb']
    case hcatkeep =>
      intro b'
      by_cases h' : b'.category = t.category
      · rw [if_pos h']
      · rw [if_neg h']
    by_cases hc : t.category = c
    · rw [if_pos ⟨ht, hc⟩]
      simp only [Option.map_some']
      rw [if_pos (hbc.trans hc.symm)]
    · rw [if_neg (fun hand => hc hand.2)]
      simp only [Option.map_some']
      rw [if_neg (fun hbt => hc (hbt.symm.trans hbc))]
  · rw [if_neg ht, if_neg (fun hand => ht hand.1), hb']

lemma categoryExpenses_addTransaction (s : FinanceState) (now : Nat)
    (t : TransactionInput) (c : String) :
    categoryExpenses (addTransaction s now t) c =
      categoryExpenses s c +
        (if t.type = TxType.expense ∧ t.category = c then t.amount else 0) := by
  unfold categoryExpenses
  rw [addTransaction_transactions, List.filter_cons]
  by_cases hcond : t.type = TxType.expense ∧ t.category = c
  · rw [if_pos (by simpa [TransactionInput.toTransaction] using hcond),
      sumAmounts_cons, if_pos hcond]
    simp [TransactionInput.toTransaction]
    ring
  · rw [if_neg (by simpa [TransactionInput.toTransaction] using hcond),
      if_neg hcond]
    ring

lemma spent_additivity_aux (adds : List (Nat × TransactionInput))
    (s : FinanceState) (c : String) (b : Budget)
    (hb : findBudget s c = some b) :
    findBudget (applyAdds adds s) c =
      some ⟨b.category, b.limit, b.spent + addedExpenseSum adds c⟩ := by
  induction adds generalizing s b with
  | nil =>
    simp only [applyAdds, List.foldl_nil, addedExpenseSum, List.map_nil,
      List.sum_nil, add_zero]
    exact hb
  | cons p adds ih =>
    obtain ⟨now, t⟩ := p
    rw [applyAdds_cons, addedExpenseSum_cons]
    have hstep := findBudget_addTransaction s now t c b hb
    by_cases hcond : t.type = TxType.expense ∧ t.category = c
    · rw [if_pos hcond] at hstep
      rw [if_pos hcond]
      have ih' := ih (addTransaction s now t)
        ⟨b.category, b.limit, b.spent + t.amount⟩ hstep
      rw [ih']
      simp [add_assoc]
    · rw [if_neg hcond] at hstep
      rw [if_neg hcond]
      have ih' := ih (addTransaction s now t) b hstep
      rw [ih']
      simp

lemma categoryExpenses_applyAdds (adds : List (Nat × TransactionInput))
    (s : FinanceState) (c : String) :
    categoryExpenses (applyAdds adds s) c =
      categoryExpenses s c + addedExpenseSum adds c := by
  induction adds generalizing s with
  | nil =>
    simp [applyAdds, addedExpenseSum]
  | cons p adds ih =>
    obtain ⟨now, t⟩ := p
    rw [applyAdds_cons, addedExpenseSum_cons, ih (addTransaction s now t),
      categoryExpenses_addTransaction]
    ring

/-- Counterexample to C1 as stated: in the seeded initial state (reachable
by the empty sequence of `addTransaction` calls) the budget entry for
`Entertainment` records `spent = 1200` while the sum of expense
transactions assigned to that category is `0`, so `spent` does not equal
the sum of expense amounts in every reachable state. -/
theorem spent_additivity_cex :
    findBudget (applyOps [] initialState) "Entertainment" =
      some { category := "Entertainment", limit := 3000, spent := 1200 } ∧
    categoryExpenses (applyOps [] initialState) "Entertainment" = 0 ∧
    (1200 : ℚ) ≠ 0 := by
  refine ⟨by decide, by decide, by norm_num⟩

/-- C1 amended. Over any sequence of `addTransaction` calls, each budget
entry's `spent` grows by exactly the sum of the added expense amounts in
its category (untracked categories have no entry and are dropped), the
per-category expense sum grows by the same quantity, and hence the
invariant `spent = sum of expense amounts currently assigned to the
category` is preserved by `addTransaction` sequences from any state that
satisfies it — the seeded initial state itself violates that equality for
the `Entertainment` and `Shopping` entries. -/
theorem spent_additivity (adds : List (Nat × TransactionInput))
    (s : FinanceState) (c : String) (b : Budget)
    (hb : findBudget s c = some b) :
    findBudget (applyAdds adds s) c =
      some ⟨b.category, b.limit, b.spent + addedExpenseSum adds c⟩ ∧
    categoryExpenses (applyAdds adds s) c =
      categoryExpenses s c + addedExpenseSum adds c ∧
    (b.spent = categoryExpenses s c →
      ∀ b2, findBudget (applyAdds adds s) c = some b2 →
        b2.spent = categoryExpenses (applyAdds adds s) c) := by
  refine ⟨spent_additivity_aux adds s c b hb,
    categoryExpenses_applyAdds adds s c, ?_⟩
  intro hsb b2 hb2
  rw [spent_additivity_aux adds s c b hb] at hb2
  have hb2' : b2 = ⟨b.category, b.limit, b.spent + addedExpenseSum adds c⟩ :=
    (Option.some.inj hb2).symm
  rw [hb2']
  show b.spent + addedExpenseSum adds c = categoryExpenses (applyAdds adds s) c
  rw [hsb, categoryExpenses_applyAdds adds s c]

/-- Witness for C1 (amended): adding a 100-unit Food expense to the seeded
state takes `Budget(Food).spent` from 2500 to 2600, matching the category
expense sum 2500 + 100. -/
theorem spent_additivity_witness :
    findBudget (applyAdds [(100, sampleExpense)] initialState) "Food" =
      some { category := "Food", limit := 5000, spent := 2600 } ∧
    categoryExpenses (applyAdds [(100, sampleExpense)] initialState) "Food" =
      2600 := by
  have h := spent_additivity [(100, sampleExpense)] initialState "Food"
    { category := "Food", limit := 5000, spent := 2500 } (by decide)
  refine ⟨?_, ?_⟩
  · rw [h.1]
    norm_num [addedExpenseSum, sampleExpense]
  · rw [h.2.1]
    simp [addedExpenseSum, sampleExpense, categoryExpenses, sumAmounts,
      initialState]
    norm_num

/-! ### Claim C3: edit reclassification -/

lemma editTransaction_budgets_of_found (s : FinanceState) (id : String)
    (t : TransactionInput) (old : Transaction)
    (hfind : s.transactions.find? (fun x => x.id = id) = some old) :
    (editTransaction s id t).budgets =
      (if t.type = TxType.expense then
        (if old.type = TxType.expense then
          s.budgets.map (fun budget =>
            if budget.category = old.category then
              { budget with spent := max 0 (budget.spent - old.amount) }
            else budget)
         else s.budgets).map (fun budget =>
          if budget.category = t.category then
            { budget with spent := budget.spent + t.amount }
          else budget)
       else
        (if old.type = TxType.expense then
          s.budgets.map (fun budget =>
            if budget.category = old.category then
              { budget with spent := max 0 (budget.spent - old.amount) }
            else budget)
         else s.budgets)) := by
  unfold editTransaction
  rw [hfind]

/-- C3. Editing a transaction `old` of category A = `old.category`, kind
expense, into input `t` with the same amount: if `t` is an expense in a
different category B = `t.category`, A's `spent` drops by the amount and
B's `spent` rises by it; if `t` is an income, A's `spent` drops by the
amount (its contribution is zeroed) — assuming budget entries exist for
the categories involved and A's `spent` covers the amount (so the
`max 0` clamp is inactive). -/
theorem edit_reclassification (s : FinanceState) (id : String)
    (t : TransactionInput) (old : Transaction) (bA : Budget)
    (hfind : s.transactions.find? (fun x => x.id = id) = some old)
    (hexp : old.type = TxType.expense)
    (hbA : findBudget s old.category = some bA)
    (hle : old.amount ≤ bA.spent)
    (hAB : t.category ≠ old.category)
    (ham : t.amount = old.amount) :
    (t.type = TxType.expense →
      ∀ bB, findBudget s t.category = some bB →
        findBudget (editTransaction s id t) old.category =
          some ⟨bA.category, bA.limit, bA.spent - old.amount⟩ ∧
        findBudget (editTransaction s id t) t.category =
          some ⟨bB.category, bB.limit, bB.spent + old.amount⟩) ∧
    (t.type = TxType.income →
      findBudget (editTransaction s id t) old.category =
        some ⟨bA.category, bA.limit, bA.spent - old.amount⟩) := by
  have hbud := editTransaction_budgets_of_found s id t old hfind
  have hbAcat : bA.category = old.category := findBudget_category hbA
  have hbA' : s.budgets.find? (fun x => x.category = old.category) = some bA :=
    hbA
  have hrevkeep : ∀ b' : Budget,
      ((fun budget =>
        if budget.category = old.category then
          { budget with spent := max 0 (budget.spent - old.amount) }
        else budget) b').category = b'.category := by
    intro b'
    by_cases h' : b'.category = old.category <;> simp [h']
  have happkeep : ∀ b' : Budget,
      ((fun budget =>
        if budget.category = t.category then
          { budget with spent := budget.spent + t.amount }
        else budget) b').category = b'.category := by
    intro b'
    by_cases h' : b'.category = t.category <;> simp [h']
  have hmax : max 0 (bA.spent - old.amount) = bA.spent - old.amount :=
    max_eq_right (sub_nonneg.mpr hle)
  constructor
  · intro ht bB hbB
    have hbB' : s.budgets.find? (fun x => x.category = t.category) = some bB :=
      hbB
    have hbBcat : bB.category = t.category := findBudget_category hbB
    rw [ht, hexp] at hbud
    rw [if_pos rfl, if_pos rfl] at hbud
    constructor
    · show (editTransaction s id t).budgets.find?
        (fun x => x.category = old.category) = _
      rw [hbud, find?_map_preserve _ _ old.category happkeep,
        find?_map_preserve _ _ old.category hrevkeep, hbA']
      simp only [Option.map_some']
      rw [if_pos hbAcat, if_neg (fun h => hAB (h.symm.trans hbAcat)), hmax]
    · show (editTransaction s id t).budgets.find?
        (fun x => x.category = t.category) = _
      rw [hbud, find?_map_preserve _ _ t.category happkeep,
        find?_map_preserve _ _ t.category hrevkeep, hbB']
      simp only [Option.map_some']
      rw [if_neg (fun h => hAB (hbBcat.symm.trans h)), if_pos hbBcat, ham]
  · intro ht
    rw [ht, hexp] at hbud
    rw [if_neg (by decide : ¬TxType.income = TxType.expense), if_pos rfl]
      at hbud
    show (editTransaction s id t).budgets.find?
      (fun x => x.category = old.category) = _
    rw [hbud, find?_map_preserve _ _ old.category hrevkeep, hbA']
    simp only [Option.map_some']
    rw [if_pos hbAcat, hmax]

def moveToTransport : TransactionInput :=
  { amount := 2500, category := "Transportation", description := "moved",
    date := ⟨2024, 1, 1⟩, type := TxType.expense }

/-- Witness for C3: editing the seeded 2500 Food expense into a 2500
Transportation expense takes Food's `spent` from 2500 to 0 and
Transportation's from 800 to 3300. -/
theorem edit_reclassification_witness :
    findBudget (editTransaction initialState "1" moveToTransport) "Food" =
      some { category := "Food", limit := 5000, spent := 0 } ∧
    findBudget (editTransaction initialState "1" moveToTransport)
      "Transportation" =
      some { category := "Transportation", limit := 2000, spent := 3300 } := by
  have h := (edit_reclassification initialState "1" moveToTransport
      { id := "1", amount := 2500, category := "Food",
        description := "Grocery shopping", date := ⟨2024, 0, 15⟩,
        type := TxType.expense }
      { category := "Food", limit := 5000, spent := 2500 }
      (by decide) (by decide) (by decide) (by decide) (by decide)
      (by decide)).1
      rfl { category := "Transportation", limit := 2000, spent := 800 }
      (by decide)
  have h1 : findBudget (editTransaction initialState "1" moveToTransport)
      "Food" = some ⟨"Food", 5000, (2500:ℚ) - 2500⟩ := h.1
  have h2 : findBudget (editTransaction initialState "1" moveToTransport)
      "Transportation" = some ⟨"Transportation", 2000, (800:ℚ) + 2500⟩ := h.2
  refine ⟨?_, ?_⟩
  · rw [h1]
    norm_num
  · rw [h2]
    norm_num

/-! ### Claim C4: non-negativity of spent -/

/-- All budget entries have non-negative `spent`. -/
def spentNonneg (s : FinanceState) : Prop :=
  ∀ b ∈ s.budgets, 0 ≤ b.spent

/-- The operation's transaction amount is non-negative (the data model
declares transaction amounts positive). -/
def amountsNonneg : Op → Prop
  | Op.addTx _ t => 0 ≤ t.amount
  | Op.editTx _ t => 0 ≤ t.amount
  | Op.deleteTx _ => True
  | Op.addGoal _ _ => True
  | Op.updateB _ _ => True

instance : DecidablePred amountsNonneg := fun op =>
  match op with
  | Op.addTx _ t => inferInstanceAs (Decidable (0 ≤ t.amount))
  | Op.editTx _ t => inferInstanceAs (Decidable (0 ≤ t.amount))
  | Op.deleteTx _ => inferInstanceAs (Decidable True)
  | Op.addGoal _ _ => inferInstanceAs (Decidable True)
  | Op.updateB _ _ => inferInstanceAs (Decidable True)

lemma spent_nonneg_map_add (l : List Budget) (cat : String) (a : ℚ)
    (ha : 0 ≤ a) (h : ∀ b ∈ l, (0:ℚ) ≤ b.spent) :
    ∀ b ∈ l.map (fun budget =>
      if budget.category = cat then
        { budget with spent := budget.spent + a }
      else budget), (0:ℚ) ≤ b.spent := by
  intro b hb
  obtain ⟨b0, hb0, rfl⟩ := List.mem_map.mp hb
  by_cases hc : b0.category = cat
  · simp only [hc, if_true]
    exact add_nonneg (h b0 hb0) ha
  · simp only [hc, if_false]
    exact h b0 hb0

lemma spent_nonneg_map_rev (l : List Budget) (cat : String) (a : ℚ)
    (h : ∀ b ∈ l, (0:ℚ) ≤ b.spent) :
    ∀ b ∈ l.map (fun budget =>
      if budget.category = cat then
        { budget with spent := max 0 (budget.spent - a) }
      else budget), (0:ℚ) ≤ b.spent := by
  intro b hb
  obtain ⟨b0, hb0, rfl⟩ := List.mem_map.mp hb
  by_cases hc : b0.category = cat
  · simp only [hc, if_true]
    exact le_max_left _ _
  · simp only [hc, if_false]
    exact h b0 hb0

lemma spentNonneg_applyOp (s : FinanceState) (op : Op)
    (hs : spentNonneg s) (hop : amountsNonneg op) :
    spentNonneg (applyOp s op) := by
  cases op with
  | addTx now t =>
    have hta : (0:ℚ) ≤ t.amount := hop
    intro b hb
    simp only [applyOp] at hb
    rw [addTransaction_budgets] at hb
    by_cases ht : t.type = TxType.expense
    · rw [if_pos ht] at hb
      exact spent_nonneg_map_add s.budgets t.category t.amount hta hs b hb
    · rw [if_neg ht] at hb
      exact hs b hb
  | editTx id t =>
    have hta : (0:ℚ) ≤ t.amount := hop
    intro b hb
    simp only [applyOp] at hb
    cases hfind : s.transactions.find? (fun x => x.id = id) with
    | none =>
      unfold editTransaction at hb
      rw [hfind] at hb
      exact hs b hb
    | some old =>
      rw [editTransaction_budgets_of_found s id t old hfind] at hb
      have hrev : ∀ b0 ∈ (if old.type = TxType.expense then
          s.budgets.map (fun budget =>
            if budget.category = old.category then
              { budget with spent := max 0 (budget.spent - old.amount) }
            else budget)
          else s.budgets), (0:ℚ) ≤ b0.spent := by
        by_cases hot : old.type = TxType.expense
        · rw [if_pos hot]
          exact spent_nonneg_map_rev s.budgets old.category old.amount hs
        · rw [if_neg hot]
          exact hs
      by_cases ht : t.type = TxType.expense
      · rw [if_pos ht] at hb
        exact spent_nonneg_map_add _ t.category t.amount hta hrev b hb
      · rw [if_neg ht] at hb
        exact hrev b hb
  | deleteTx id =>
    intro b hb
    simp only [applyOp] at hb
    cases hfind : s.transactions.find? (fun x => x.id = id) with
    | none =>
      unfold deleteTransaction at hb
      rw [hfind] at hb
      exact hs b hb
    | some tx =>
      rw [deleteTransaction_budgets_of_found s id tx hfind] at hb
      by_cases hxt : tx.type = TxType.expense
      · rw [if_pos hxt] at hb
        exact spent_nonneg_map_rev s.budgets tx.category tx.amount hs b hb
      · rw [if_neg hxt] at hb
        exact hs b hb
  | addGoal now g =>
    intro b hb
    exact hs b hb
  | updateB c l =>
    intro b hb
    simp only [applyOp, updateBudget] at hb
    obtain ⟨b0, hb0, rfl⟩ := List.mem_map.mp hb
    by_cases hc : b0.category = c
    · simp only [hc, if_true]
      exact hs b0 hb0
    · simp only [hc, if_false]
      exact hs b0 hb0

/-- C4. Starting from any state whose budgets all have non-negative
`spent`, any sequence of engine operations with non-negative transaction
amounts keeps every budget's `spent` non-negative: the `max 0` clamp on
the delete/edit reversal paths prevents out-of-order sequences from
driving it below zero. -/
theorem spent_nonneg_invariant (ops : List Op) (s : FinanceState)
    (hs : spentNonneg s) (hops : ∀ op ∈ ops, amountsNonneg op) :
    spentNonneg (applyOps ops s) := by
  induction ops generalizing s with
  | nil => exact hs
  | cons op ops ih =>
    exact ih (applyOp s op)
      (spentNonneg_applyOp s op hs (hops op (List.mem_cons_self op ops)))
      (fun o ho => hops o (List.mem_cons_of_mem op ho))

instance (s : FinanceState) : Decidable (spentNonneg s) :=
  inferInstanceAs (Decidable (∀ b ∈ s.budgets, 0 ≤ b.spent))

def demoGoal : SavingsGoalInput :=
  { name := "Bike", target := 300, current := 0, deadline := ⟨2025, 1, 1⟩ }

def demoOps : List Op :=
  [ Op.addTx 100 sampleExpense,
    Op.editTx (Nat.repr 100) moveToTransport,
    Op.deleteTx (Nat.repr 100),
    Op.deleteTx "1",
    Op.deleteTx "1",
    Op.updateB "Food" 1000,
    Op.addGoal 200 demoGoal ]

/-- Witness for C4: a concrete out-of-order add/edit/delete sequence
(including a double delete) on the seeded state. -/
theorem spent_nonneg_invariant_witness :
    spentNonneg (applyOps demoOps initialState) :=
  spent_nonneg_invariant demoOps initialState (by decide) (by decide)

/-! ### Claim C6: regret-risk bounds -/

/-- Counterexample to C6 as stated: the source clamps the risk only from
above (`Math.min(risk, 1)`), so a negative numeric amount drives it below
0: on the seeded state `checkRegretRisk(-10000, 'Food')` yields
`risk = (2500 - 10000)/5000 = -3/2 ∉ [0, 1]`. -/
theorem regret_risk_cex :
    (checkRegretRisk initialState (-10000) "Food" 0).risk = -3/2 ∧
    ((-3 : ℚ)/2) < 0 := by
  constructor
  · simp [checkRegretRisk, categoryExpenses, sumAmounts, initialState,
      findBudget]
    norm_num [min_def]
  · norm_num

/-- C6 amended. `checkRegretRisk(...).risk` is at most 1 for any numeric
amount; it lies in `[0, 1]` whenever the category's pending total
`categorySpentSoFar + amount` is non-negative (in particular for any
non-negative amount, however large) and the budget limit is positive;
when no Budget entry exists for the category the risk is the fixed
midpoint 1/2. It is not bounded below by 0 for negative amounts. -/
theorem regret_risk_bounds (s : FinanceState) (amount : ℚ)
    (category : String) (r : Nat) :
    (checkRegretRisk s amount category r).risk ≤ 1 ∧
    (findBudget s category = none →
      (checkRegretRisk s amount category r).risk = 1/2) ∧
    (∀ b, findBudget s category = some b → 0 < b.limit →
      0 ≤ categoryExpenses s category + amount →
      0 ≤ (checkRegretRisk s amount category r).risk) := by
  refine ⟨min_le_right _ _, ?_, ?_⟩
  · intro hnone
    unfold checkRegretRisk
    rw [hnone]
    norm_num
  · intro b hb hlim hnum
    unfold checkRegretRisk
    rw [hb]
    exact le_min (div_nonneg hnum (le_of_lt hlim)) (by norm_num)

/-- Witness for C6 (amended) at concrete inputs: a large affordable-range
query on a budgeted category, and a query on a category with no budget
entry. -/
theorem regret_risk_bounds_witness :
    (checkRegretRisk initialState 2600 "Food" 0).risk ≤ 1 ∧
    0 ≤ (checkRegretRisk initialState 2600 "Food" 0).risk ∧
    (checkRegretRisk initialState 100 "Gym" 0).risk = 1/2 := by
  have h1 := regret_risk_bounds initialState 2600 "Food" 0
  have h2 := regret_risk_bounds initialState 100 "Gym" 0
  refine ⟨h1.1, ?_, h2.2.1 (by decide)⟩
  refine h1.2.2 { category := "Food", limit := 5000, spent := 2500 }
    (by decide) (by norm_num) ?_
  simp [categoryExpenses, sumAmounts, initialState]
  norm_num

/-! ### Claim C7: canAfford -/

/-- Counterexample to C7's "catalog of exactly four": when affordability
fails, five pairwise-distinct suggestions are reachable (the source's
`suggestions` array has five elements and the random index ranges over
all of them), so the output is not confined to any four-message
catalog. -/
theorem can_afford_cex :
    (canAfford initialState 1000000 4).canAfford = false ∧
    ((List.range 5).map
      (fun r => (canAfford initialState 1000000 r).suggestion)).Nodup ∧
    ((List.range 5).map
      (fun r => (canAfford initialState 1000000 r).suggestion)).length = 5 := by
  have hbal : totalIncome initialState - totalExpenses initialState = 1700 := by
    simp [totalIncome, totalExpenses, initialState, sumAmounts]
    norm_num
  have hs : ∀ r, (canAfford initialState 1000000 r).canAfford = false ∧
      (canAfford initialState 1000000 r).suggestion =
        suggestions.getD r "" := by
    intro r
    simp only [canAfford]
    rw [hbal]
    norm_num
  have hmap : ((List.range 5).map
      (fun r => (canAfford initialState 1000000 r).suggestion)) =
      suggestions := by
    have hrange : List.range 5 = [0, 1, 2, 3, 4] := rfl
    rw [hrange]
    simp only [List.map_cons, List.map_nil, (hs 0).2, (hs 1).2, (hs 2).2,
      (hs 3).2, (hs 4).2]
    rfl
  refine ⟨(hs 4).1, ?_, ?_⟩
  · rw [hmap]
    decide
  · rw [hmap]
    rfl

/-- C7 amended. `canAfford` returns the boolean
`sum(income) - sum(expenses) ≥ amount` over the full store; when true the
suggestion is the single fixed affirming message, and when false it is a
member of the fixed catalog of exactly FIVE alternative messages. -/
theorem can_afford_spec (s : FinanceState) (amount : ℚ) (r : Nat)
    (hr : r < 5) :
    ((canAfford s amount r).canAfford = true ↔
      totalIncome s - totalExpenses s ≥ amount) ∧
    ((canAfford s amount r).canAfford = true →
      (canAfford s amount r).suggestion =
        "You can afford this! Consider your other goals too.") ∧
    ((canAfford s amount r).canAfford = false →
      (canAfford s amount r).suggestion ∈ suggestions) ∧
    suggestions.length = 5 := by
  refine ⟨?_, ?_, ?_, rfl⟩
  · show decide (totalIncome s - totalExpenses s ≥ amount) = true ↔ _
    exact decide_eq_true_iff
  · intro hca
    have hca' : decide (totalIncome s - totalExpenses s ≥ amount) = true := hca
    show (if decide (totalIncome s - totalExpenses s ≥ amount) = true
      then "You can afford this! Consider your other goals too."
      else suggestions.getD r "") = _
    rw [hca']
    simp
  · intro hca
    have hca' : decide (totalIncome s - totalExpenses s ≥ amount) = false := hca
    show (if decide (totalIncome s - totalExpenses s ≥ amount) = true
      then "You can afford this! Consider your other goals too."
      else suggestions.getD r "") ∈ suggestions
    rw [hca']
    simp only [Bool.false_eq_true, if_false]
    interval_cases r <;> decide

/-- Witness for C7 (amended) at concrete inputs. -/
theorem can_afford_spec_witness :
    ((canAfford initialState 100 3).canAfford = true ↔
      totalIncome initialState - totalExpenses initialState ≥ 100) ∧
    ((canAfford initialState 100 3).canAfford = true →
      (canAfford initialState 100 3).suggestion =
        "You can afford this! Consider your other goals too.") ∧
    ((canAfford initialState 100 3).canAfford = false →
      (canAfford initialState 100 3).suggestion ∈ suggestions) ∧
    suggestions.length = 5 :=
  can_afford_spec initialState 100 3 (by norm_num)

end BudgetPlanner
